import Mathlib

/-!
Shallow embedding of `hex_parser.py`, an Intel HEX record parser with a
line-by-line file scanner.

Modelling conventions for Python semantics:
* a line of text is a `List Char`; `str.strip()` is `pyStrip` over the ASCII
  whitespace set;
* `int(s, 16)` is `pyIntHex` (ASCII model of CPython's grammar: optional
  surrounding whitespace, an optional sign, an optional `0x`/`0X` base marker,
  and hex digits with single underscores allowed between digits);
* `x & 0xff` on a (possibly negative) Python integer is `pyAnd255`, i.e.
  `x % 256` with Euclidean remainder, and `~x` is `pyNot x = -x - 1`;
* an exception raised by `parse_hex_record` is an `Except.error`:
  `ParseError.hexRecordError msg` for a raised `HexRecordError(msg)` and
  `ParseError.valueError` for the `ValueError` coming out of `int`, which the
  program never catches per-line;
* `print` output is collected into `List String`; Python's `print(e)` on a
  `HexRecordError` prints `repr(msg)`, i.e. the message in single quotes.
-/

namespace HexParser

/-- ASCII whitespace, the characters stripped by Python's `str.strip()` and
accepted around an `int` literal. -/
def pyIsSpace (c : Char) : Bool :=
  c == ' ' || c == '\t' || c == '\n' || c == '\r' || c == '\x0b' || c == '\x0c'

/-- Python `str.strip()`: remove leading and trailing whitespace. -/
def pyStrip (l : List Char) : List Char :=
  ((l.dropWhile pyIsSpace).reverse.dropWhile pyIsSpace).reverse

/-- Value of one hexadecimal digit (`0-9`, `a-f`, `A-F`). -/
def pyHexDigit (c : Char) : Option Int :=
  if '0' ≤ c ∧ c ≤ '9' then some ((c.toNat : Int) - ('0'.toNat : Int))
  else if 'a' ≤ c ∧ c ≤ 'f' then some ((c.toNat : Int) - ('a'.toNat : Int) + 10)
  else if 'A' ≤ c ∧ c ≤ 'F' then some ((c.toNat : Int) - ('A'.toNat : Int) + 10)
  else none

/-- Run of hex digits after the first one, accumulating the value; a single
underscore is allowed between two digits (CPython literal grammar). -/
def pyHexDigitsGo (acc : Int) : List Char → Option Int
  | [] => some acc
  | c :: rest =>
    if c = '_' then
      match rest with
      | [] => none
      | c2 :: rest2 =>
        match pyHexDigit c2 with
        | none => none
        | some d => pyHexDigitsGo (16 * acc + d) rest2
    else
      match pyHexDigit c with
      | none => none
      | some d => pyHexDigitsGo (16 * acc + d) rest

/-- Nonempty run of hex digits (underscores allowed between digits). -/
def pyHexDigitsRun (l : List Char) : Option Int :=
  match l with
  | [] => none
  | c :: rest =>
    match pyHexDigit c with
    | none => none
    | some d => pyHexDigitsGo d rest

/-- Digits after a `0x`/`0X` base marker; one underscore may directly follow
the marker. -/
def pyIntHexAfterBaseMarker (l : List Char) : Option Int :=
  match l with
  | [] => none
  | c :: rest => if c = '_' then pyHexDigitsRun rest else pyHexDigitsRun (c :: rest)

/-- Unsigned part of a base-16 integer literal: optional `0x`/`0X` marker,
then digits. -/
def pyIntHexMag (l : List Char) : Option Int :=
  match l with
  | c0 :: c1 :: rest =>
    if c0 = '0' ∧ (c1 = 'x' ∨ c1 = 'X') then pyIntHexAfterBaseMarker rest
    else pyHexDigitsRun (c0 :: c1 :: rest)
  | _ => pyHexDigitsRun l

/-- Python `int(s, 16)` on an ASCII string, `none` when a `ValueError` would
be raised: optional whitespace, optional sign, optional `0x`/`0X` marker,
hex digits. -/
def pyIntHex (l : List Char) : Option Int :=
  match pyStrip l with
  | [] => none
  | c :: rest =>
    if c = '+' then pyIntHexMag rest
    else if c = '-' then (pyIntHexMag rest).map (fun v => -v)
    else pyIntHexMag (c :: rest)

/-- Python `x & 0xff` in two's complement, i.e. the Euclidean remainder
`x % 256`, always in `[0, 255]`. -/
def pyAnd255 (x : Int) : Int := x % 256

/-- Python `~x`. -/
def pyNot (x : Int) : Int := -x - 1

/-- Decoded representation of one line; mirrors Python class `HexRecord`
(field `type` of the Python object is kept under the same name). -/
structure HexRecord where
  data_count : Int
  address : Int
  absolute_address : Int
  type : Int
  data : List Int
  checksum : Int
  valid : Bool
deriving DecidableEq

/-- Why a line failed to parse: a raised `HexRecordError`, or the uncaught
`ValueError` from `int` on a field with non-hexadecimal characters. -/
inductive ParseError where
  | hexRecordError (msg : String)
  | valueError
deriving DecidableEq

/-- `get_hex_record_byte(record, n)`: decode the byte at
`record[1 + 2n : 3 + 2n]`. -/
def get_hex_record_byte (record : List Char) (n : Nat) : Option Int :=
  pyIntHex ((record.drop (1 + n * 2)).take 2)

/-- `get_hex_record_byte_count(record)`: `(len(record) - 1) // 2`. (For
`len(record) = 0` Python gets `-1` where truncated `Nat` subtraction gives
`0`; both make every loop `range(0, byte_count - 1)` empty, so the observable
behaviour agrees.) -/
def get_hex_record_byte_count (record : List Char) : Nat :=
  (record.length - 1) / 2

/-- `get_hex_record_data_count(record)`. -/
def get_hex_record_data_count (record : List Char) : Option Int :=
  get_hex_record_byte record 0

/-- `get_hex_record_address(record)`: big-endian, `(hi << 8) + lo`. -/
def get_hex_record_address (record : List Char) : Option Int :=
  (get_hex_record_byte record 1).bind fun hi =>
    (get_hex_record_byte record 2).map fun lo => hi * 256 + lo

/-- `get_hex_record_type(record)`. -/
def get_hex_record_type (record : List Char) : Option Int :=
  get_hex_record_byte record 3

/-- `get_hex_record_data_byte(record, n)` (defined in the source but never
called by it). -/
def get_hex_record_data_byte (record : List Char) (n : Nat) : Option Int :=
  get_hex_record_byte record (4 + n)

/-- `get_hex_record_checksum(record)`: decode `record[-2:]`. -/
def get_hex_record_checksum (record : List Char) : Option Int :=
  pyIntHex (record.drop (record.length - 2))

/-- The loop `for n in range(0, count): ... get_hex_record_byte(record, i + n)`
collecting the decoded bytes in order; `none` as soon as one byte fails to
decode, like the `ValueError` aborting the Python loop. -/
def decodeFrom (record : List Char) (i : Nat) : Nat → Option (List Int)
  | 0 => some []
  | n + 1 =>
    (get_hex_record_byte record i).bind fun b =>
      (decodeFrom record (i + 1) n).map fun rest => b :: rest

/-- Python `bytearray(xs)` on a list of ints: fails with `ValueError` unless
every element is a byte value in `[0, 256)` (reachable here because
`int("-1", 16)` decodes a signed field to a negative value). -/
def pyBytearray (xs : List Int) : Option (List Int) :=
  if xs.all fun b => decide (0 ≤ b ∧ b < 256) then some xs else none

/-- `get_hex_record_data_content(record)`: bytes `0 .. byte_count - 1` where
`byte_count = get_hex_record_byte_count(record) - 1`, converted with
`bytearray(...)`; note the loop starts at byte offset 0, not after the
record-type field. -/
def get_hex_record_data_content (record : List Char) : Option (List Int) :=
  (decodeFrom record 0 (get_hex_record_byte_count record - 1)).bind pyBytearray

/-- The checksum accumulation loop `checksum += byte; checksum &= 0xff`. -/
def checksumFold (record : List Char) (i : Nat) (acc : Int) : Nat → Option Int
  | 0 => some acc
  | n + 1 =>
    (get_hex_record_byte record i).bind fun b =>
      checksumFold record (i + 1) (pyAnd255 (acc + b)) n

/-- `calculate_hex_record_checksum(record)`: fold the same bytes
`0 .. byte_count - 1` and return `(1 + (~checksum & 0xff)) & 0xff`. -/
def calculate_hex_record_checksum (record : List Char) : Option Int :=
  (checksumFold record 0 0 (get_hex_record_byte_count record - 1)).map fun c =>
    pyAnd255 (1 + pyAnd255 (pyNot c))

/-- Checks of `parse_hex_record` after the two length checks: leading colon,
declared-vs-actual length, field decoding, checksum comparison. The argument
is the already-stripped line. -/
def parse_hex_record_core (line : List Char) : Except ParseError HexRecord :=
  if ¬ (line.head? = some ':') then
    .error (.hexRecordError "Hex record must begin with a colon")
  else
    match get_hex_record_data_count line with
    | none => .error .valueError
    | some data_count =>
      if (line.length : Int) ≠ 11 + data_count * 2 then
        .error (.hexRecordError "Hex record data count does not mach actual content")
      else
        match get_hex_record_address line with
        | none => .error .valueError
        | some address =>
          match get_hex_record_type line with
          | none => .error .valueError
          | some ty =>
            match get_hex_record_data_content line with
            | none => .error .valueError
            | some data =>
              match get_hex_record_checksum line with
              | none => .error .valueError
              | some checksum =>
                match calculate_hex_record_checksum line with
                | none => .error .valueError
                | some calculated =>
                  if checksum ≠ calculated then
                    .error (.hexRecordError
                      s!"Checksum does not mach: record={checksum}, calculated={calculated}")
                  else
                    .ok { data_count := data_count, address := address,
                          absolute_address := 0, type := ty, data := data,
                          checksum := checksum, valid := true }

/-- `parse_hex_record(line)`: strip, check minimum length, check odd length,
then the remaining checks. -/
def parse_hex_record (line0 : List Char) : Except ParseError HexRecord :=
  let line := pyStrip line0
  if line.length < 11 then
    .error (.hexRecordError "Hex record too short (minimum length 11 bytes)")
  else if line.length % 2 ≠ 1 then
    .error (.hexRecordError "Hex record length must be an odd number")
  else
    parse_hex_record_core line

/-- `HexRecord.print_type`: the known-type table with its fallback line. -/
def print_type_line (t : Int) : String :=
  if t = 0 then "data record"
  else if t = 1 then "end of file record"
  else if t = 2 then "extended segment address"
  else if t = 4 then "extended linear address"
  else s!"Unknown type {t}"

/-- Python `print(e)` on a `HexRecordError` prints `repr(value)`: the message
wrapped in single quotes (no message of this program needs escaping). -/
def hexRecordErrorShown (msg : String) : String :=
  "'" ++ msg ++ "'"

/-- `is_valid_hex_record(line)`: `some (valid, printed lines)` normally;
`none` when the uncaught `ValueError` propagates to the caller. -/
def is_valid_hex_record (line : List Char) : Option (Bool × List String) :=
  match parse_hex_record line with
  | .ok r => some (r.valid, [print_type_line r.type])
  | .error (.hexRecordError msg) => some (false, [hexRecordErrorShown msg])
  | .error .valueError => none

/-- `read_hex_file` after a successful open: process the lines in order;
an invalid line is echoed (stripped) after its error; a `ValueError`
escaping `is_valid_hex_record` is caught by the bare `except:` around the
loop, which prints the file-level message and ends the scan. -/
def read_hex_file_lines (filename : String) : List (List Char) → List String
  | [] => []
  | l :: ls =>
    match is_valid_hex_record l with
    | some (true, out) => out ++ read_hex_file_lines filename ls
    | some (false, out) => out ++ [String.mk (pyStrip l)] ++ read_hex_file_lines filename ls
    | none => [s!"Error while reading file {filename}"]

/-- Recomputation step described by the spec's round-trip property: the
two's-complement checksum over the returned record's own fields —
`byte_count`, address high byte, address low byte, `record_type`, and every
byte of the returned `data` field. -/
def spec_recompute_checksum (r : HexRecord) : Int :=
  (256 - ((r.data_count + r.address / 256 + r.address % 256 + r.type + r.data.sum) % 256)) % 256

/-- The checksum field of a line is correct: the final two characters decode
to exactly the value `calculate_hex_record_checksum` computes for the line. -/
def checksum_matches (l : List Char) : Bool :=
  match get_hex_record_checksum l, calculate_hex_record_checksum l with
  | some a, some b => a == b
  | _, _ => false

/-- The parser of the redundancy claim: `parse_hex_record` with the
"length must be odd" check removed, all other checks unchanged. -/
def parse_hex_record_without_odd_check (line0 : List Char) : Except ParseError HexRecord :=
  let line := pyStrip line0
  if line.length < 11 then
    .error (.hexRecordError "Hex record too short (minimum length 11 bytes)")
  else
    parse_hex_record_core line

/-- A hexadecimal digit written with a letter (the only characters whose case
can change). -/
def isHexLetter (c : Char) : Bool :=
  decide (('a' ≤ c ∧ c ≤ 'f') ∨ ('A' ≤ c ∧ c ≤ 'F'))

/-- Two characters are equal up to the case of a hexadecimal digit: either
identical, or both hex-digit letters denoting the same value. -/
def hexCaseRel (c c' : Char) : Bool :=
  c == c' || (isHexLetter c && isHexLetter c' && pyHexDigit c == pyHexDigit c')

/-- Two lines differ at most in the case of their hexadecimal digits. -/
def hexCaseEquiv : List Char → List Char → Bool
  | [], [] => true
  | c :: l, c' :: l' => hexCaseRel c c' && hexCaseEquiv l l'
  | _, _ => false

/-! Theorems.  First the per-claim closed evaluations, then the general
lemmas and the quantified claims. -/

/-- C1: the claim `data.length = byte_count` fails on the code.  The
end-of-file line `:00000001FF` parses successfully with `byte_count = 0`,
yet the returned `data` holds the four header bytes (count, address high,
address low, type), so its length is `byte_count + 4 = 4`, not `0`:
`get_hex_record_data_content` starts decoding at byte offset 0. -/
theorem parse_hex_record_data_length_bug :
    ∃ r : HexRecord, parse_hex_record (":00000001FF".data) = Except.ok r ∧
      r.data_count = 0 ∧ r.data = [0, 0, 0, 1] ∧ r.data.length = 4 :=
  ⟨⟨0, 0, 0, 1, [0, 0, 0, 1], 255, true⟩, rfl, rfl, rfl, rfl⟩

/-- C2: the claim that a malformed line is never fatal to the scan fails on
the code.  A line whose byte-count field holds non-hexadecimal characters
raises a `ValueError` that `is_valid_hex_record` does not catch; the bare
`except:` of `read_hex_file` then prints the file-level message and the scan
stops, so the valid second line is never processed — whereas scanning that
second line alone reports it. -/
theorem read_hex_file_stops_on_decode_error :
    read_hex_file_lines "firmware.hex" [":GG00000100".data, ":00000001FF".data]
        = ["Error while reading file firmware.hex"] ∧
      read_hex_file_lines "firmware.hex" [":00000001FF".data] = ["end of file record"] :=
  ⟨rfl, rfl⟩

/-- C4: the claim that every parse failure surfaces as a `HexRecordError`
fails on the code.  On `:GG00000100` (well-formed length, colon in place,
non-hex byte-count field) `int` raises a `ValueError`, which
`parse_hex_record` neither catches nor converts. -/
theorem parse_hex_record_value_error_escapes :
    parse_hex_record (":GG00000100".data) = Except.error ParseError.valueError :=
  rfl

/-- C5: the parse-then-recompute round trip fails on the code.  For the
successfully parsed line `:00000001FF` the stored checksum is `0xFF`, but
recomputing the two's-complement checksum over the returned record's own
fields gives `0xFE`, because the returned `data` already contains the four
header bytes a second time. -/
theorem parse_then_recompute_checksum_fails :
    ∃ r : HexRecord, parse_hex_record (":00000001FF".data) = Except.ok r ∧
      spec_recompute_checksum r = 254 ∧ r.checksum = 255 :=
  ⟨⟨0, 0, 0, 1, [0, 0, 0, 1], 255, true⟩, rfl, rfl, rfl⟩

/-- C6 counterexample: the claim's input `:0000000100` (then `\r\n`) does
not parse successfully — its checksum field is `0x00` while the computed
checksum is `0xFF`, so the parser rejects it with the checksum-mismatch
error. -/
theorem scenario_one_line_rejected :
    parse_hex_record (":0000000100\r\n".data)
      = Except.error (ParseError.hexRecordError
          "Checksum does not mach: record=0, calculated=255") :=
  rfl

/-- C6 amended: with the checksum field corrected to `0xFF`, the line
`:00000001FF` (followed by `\r\n`, stripped before checking) parses with
`byte_count = 0`, `address = 0`, `record_type = 1`, `checksum = 0xFF` (the
returned `data`, per the code, is the four header bytes `[0,0,0,1]`), and
the scanner reports it as "end of file record". -/
theorem scenario_one_corrected_line :
    parse_hex_record (":00000001FF\r\n".data)
        = Except.ok ⟨0, 0, 0, 1, [0, 0, 0, 1], 255, true⟩ ∧
      read_hex_file_lines "f" [":00000001FF\r\n".data] = ["end of file record"] :=
  ⟨rfl, rfl⟩

/-- Decoding a run of `n` bytes yields `n` values. -/
theorem decodeFrom_length (record : List Char) :
    ∀ (n i : Nat) (vs : List Int), decodeFrom record i n = some vs → vs.length = n := by
  intro n
  induction n with
  | zero =>
    intro i vs h
    simp only [decodeFrom, Option.some.injEq] at h
    simp [← h]
  | succ n ih =>
    intro i vs h
    simp only [decodeFrom, Option.bind_eq_some, Option.map_eq_some'] at h
    obtain ⟨b, _, rest, hrest, hcons⟩ := h
    simp [← hcons, ih _ _ hrest]

/-- The masked checksum accumulation loop computes the masked sum of the
decoded bytes. -/
theorem checksumFold_eq (record : List Char) :
    ∀ (n i : Nat) (acc : Int), acc % 256 = acc →
      checksumFold record i acc n
        = (decodeFrom record i n).map fun vs => (acc + vs.sum) % 256 := by
  intro n
  induction n with
  | zero =>
    intro i acc hacc
    simp [checksumFold, decodeFrom, hacc]
  | succ n ih =>
    intro i acc hacc
    simp only [checksumFold, decodeFrom]
    cases hb : get_hex_record_byte record i with
    | none => simp
    | some b =>
      simp only [Option.some_bind]
      rw [ih (i + 1) (pyAnd255 (acc + b)) (by unfold pyAnd255; omega)]
      cases hd : decodeFrom record (i + 1) n with
      | none => simp
      | some vs =>
        simp only [Option.map_some', Option.some.injEq, List.sum_cons, pyAnd255]
        omega

/-- Inversion of a successful parse: the structural facts the quantified
claims need, all phrased over the stripped line and the returned record. -/
theorem parse_ok_inversion (line : List Char) (r : HexRecord)
    (h : parse_hex_record line = Except.ok r) :
    ∃ (k : Nat) (b1 b2 : Int) (ds : List Int),
      (pyStrip line).length = 11 + 2 * k ∧
      get_hex_record_data_count (pyStrip line) = some ((k : Nat) : Int) ∧
      get_hex_record_byte (pyStrip line) 1 = some b1 ∧
      get_hex_record_byte (pyStrip line) 2 = some b2 ∧
      get_hex_record_type (pyStrip line) = some r.type ∧
      decodeFrom (pyStrip line) 4 k = some ds ∧
      get_hex_record_data_content (pyStrip line) = some r.data ∧
      get_hex_record_checksum (pyStrip line) = some r.checksum ∧
      calculate_hex_record_checksum (pyStrip line) = some r.checksum ∧
      r.data_count = ((k : Nat) : Int) ∧
      r.address = b1 * 256 + b2 ∧
      r.data = ((k : Nat) : Int) :: b1 :: b2 :: r.type :: ds ∧
      r.checksum = (256 - ((((k : Nat) : Int) + b1 + b2 + r.type + ds.sum) % 256)) % 256 ∧
      r.absolute_address = 0 ∧ r.valid = true := by
  simp only [parse_hex_record] at h
  set s := pyStrip line with hs
  split at h
  · simp at h
  rename_i hlen11
  split at h
  · simp at h
  rename_i hodd
  simp only [parse_hex_record_core] at h
  split at h
  · simp at h
  rename_i hcolon
  split at h
  · simp at h
  rename_i data_count hdc
  split at h
  · simp at h
  rename_i hlenmatch
  split at h
  · simp at h
  rename_i address haddr
  split at h
  · simp at h
  rename_i ty hty
  split at h
  · simp at h
  rename_i data hdata
  split at h
  · simp at h
  rename_i checksum hcks
  split at h
  · simp at h
  rename_i calculated hcalc
  split at h
  · simp at h
  rename_i hckeq
  have hrec := Except.ok.inj h
  subst hrec
  have hlq : (s.length : Int) = 11 + data_count * 2 := not_ne_iff.mp hlenmatch
  have hckeq' : checksum = calculated := not_ne_iff.mp hckeq
  have hdcpos : 0 ≤ data_count := by omega
  have hkc : ((data_count.toNat : Nat) : Int) = data_count := Int.toNat_of_nonneg hdcpos
  set k := data_count.toNat with hk
  have hslen : s.length = 11 + 2 * k := by omega
  have hbc : get_hex_record_byte_count s - 1 = k + 4 := by
    simp only [get_hex_record_byte_count]; omega
  have hdata4 : decodeFrom s 0 (k + 4) = some data := by
    have hb := hdata
    simp only [get_hex_record_data_content, hbc, Option.bind_eq_some] at hb
    obtain ⟨vs, hvs, hba⟩ := hb
    have hveq : vs = data := by
      unfold pyBytearray at hba
      split at hba
      · exact Option.some.inj hba
      · cases hba
    rw [← hveq]
    exact hvs
  have hcalc2 : some calculated
      = (decodeFrom s 0 (k + 4)).map
          (fun vs => pyAnd255 (1 + pyAnd255 (pyNot ((0 + vs.sum) % 256)))) := by
    rw [← hcalc, calculate_hex_record_checksum, hbc,
      checksumFold_eq s (k + 4) 0 0 (by norm_num)]
    cases decodeFrom s 0 (k + 4) <;> rfl
  rw [hdata4] at hcalc2
  simp only [Option.map_some', Option.some.injEq, pyAnd255, pyNot] at hcalc2
  simp only [decodeFrom, Option.bind_eq_some, Option.map_eq_some'] at hdata4
  obtain ⟨b0, hb0, vs1, ⟨b1, hb1, vs2, ⟨b2, hb2, vs3, ⟨b3, hb3, ds, hds, hvs3⟩, hvs2⟩, hvs1⟩, hdataeq⟩ := hdata4
  have hb0dc : b0 = data_count := by
    have := hdc
    simp only [get_hex_record_data_count, hb0, Option.some.injEq] at this
    exact this
  have haddr' : address = b1 * 256 + b2 := by
    have := haddr
    simp only [get_hex_record_address, hb1, hb2, Option.some_bind, Option.map_some',
      Option.some.injEq] at this
    exact this.symm
  have hty' : ty = b3 := by
    have := hty
    simp only [get_hex_record_type, hb3, Option.some.injEq] at this
    exact this.symm
  have hdsum : data.sum = b0 + (b1 + (b2 + (b3 + ds.sum))) := by
    rw [← hdataeq, ← hvs1, ← hvs2, ← hvs3]
    simp
  refine ⟨k, b1, b2, ds, hslen, ?_, hb1, hb2, ?_, hds, hdata, hcks, ?_, ?_, ?_, ?_, ?_, rfl, rfl⟩
  · rw [hkc]; exact hdc
  · show get_hex_record_type s = some ty
    exact hty
  · show calculate_hex_record_checksum s = some checksum
    rw [← hckeq'] at hcalc
    exact hcalc
  · show data_count = ((k : Nat) : Int)
    exact hkc.symm
  · show address = b1 * 256 + b2
    exact haddr'
  · show data = ((k : Nat) : Int) :: b1 :: b2 :: ty :: ds
    rw [hkc, ← hdataeq, ← hvs1, ← hvs2, ← hvs3, hb0dc, hty']
  · show checksum = (256 - ((((k : Nat) : Int) + b1 + b2 + ty + ds.sum) % 256)) % 256
    rw [hkc, hty']
    omega

/-- C3: for every line the parser accepts, the decoded final checksum field
equals `(256 - ((byte_count + address-high + address-low + record_type +
sum of the byte_count data bytes of the line) % 256)) % 256`, the
two's-complement of the 8-bit truncated sum (`decodeFrom line 4 byte_count`
decodes exactly the `byte_count` data bytes, at offsets after the
record-type field). -/
theorem parse_hex_record_checksum_formula (line : List Char) (r : HexRecord)
    (h : parse_hex_record line = Except.ok r) :
    ∃ (b1 b2 : Int) (ds : List Int),
      get_hex_record_byte (pyStrip line) 1 = some b1 ∧
      get_hex_record_byte (pyStrip line) 2 = some b2 ∧
      decodeFrom (pyStrip line) 4 r.data_count.toNat = some ds ∧
      get_hex_record_checksum (pyStrip line) = some r.checksum ∧
      r.checksum = (256 - ((r.data_count + b1 + b2 + r.type + ds.sum) % 256)) % 256 := by
  obtain ⟨k, b1, b2, ds, hlen, hdc, hb1, hb2, hty, hds, hcontent, hcks, hcalc, hrdc,
    hraddr, hrdata, hrcks, habs, hvalid⟩ := parse_ok_inversion line r h
  have hkk : r.data_count.toNat = k := by omega
  exact ⟨b1, b2, ds, hb1, hb2, by rw [hkk]; exact hds, hcks, by rw [hrdc]; exact hrcks⟩

/-- C3 witness: the formula instantiated at the end-of-file record
`:00000001FF`. -/
theorem parse_hex_record_checksum_formula_witness :
    ∃ (b1 b2 : Int) (ds : List Int),
      get_hex_record_byte (pyStrip (":00000001FF".data)) 1 = some b1 ∧
      get_hex_record_byte (pyStrip (":00000001FF".data)) 2 = some b2 ∧
      decodeFrom (pyStrip (":00000001FF".data)) 4 ((0 : Int)).toNat = some ds ∧
      get_hex_record_checksum (pyStrip (":00000001FF".data)) = some 255 ∧
      (255 : Int) = (256 - (((0 : Int) + b1 + b2 + 1 + ds.sum) % 256)) % 256 :=
  parse_hex_record_checksum_formula (":00000001FF".data)
    ⟨0, 0, 0, 1, [0, 0, 0, 1], 255, true⟩ rfl

/-- C10: for every line the parser accepts, the returned `data` field holds
exactly `byte_count + 4` bytes: the byte-count byte, the address high byte,
the address low byte and the record-type byte, followed by the `byte_count`
data bytes of the line in order — extraction starts at byte offset 0. -/
theorem parse_hex_record_data_content_layout (line : List Char) (r : HexRecord)
    (h : parse_hex_record line = Except.ok r) :
    ∃ (b1 b2 : Int) (ds : List Int),
      get_hex_record_byte (pyStrip line) 1 = some b1 ∧
      get_hex_record_byte (pyStrip line) 2 = some b2 ∧
      decodeFrom (pyStrip line) 4 r.data_count.toNat = some ds ∧
      r.data = r.data_count :: b1 :: b2 :: r.type :: ds ∧
      r.data.length = r.data_count.toNat + 4 := by
  obtain ⟨k, b1, b2, ds, hlen, hdc, hb1, hb2, hty, hds, hcontent, hcks, hcalc, hrdc,
    hraddr, hrdata, hrcks, habs, hvalid⟩ := parse_ok_inversion line r h
  have hkk : r.data_count.toNat = k := by omega
  refine ⟨b1, b2, ds, hb1, hb2, by rw [hkk]; exact hds, ?_, ?_⟩
  · rw [hrdata, hrdc]
  · rw [hrdata]
    simp [decodeFrom_length (pyStrip line) k 4 ds hds, hkk]

/-- C10 witness: the layout instantiated at the end-of-file record
`:00000001FF`, whose returned data is the four header bytes. -/
theorem parse_hex_record_data_content_layout_witness :
    ∃ (b1 b2 : Int) (ds : List Int),
      get_hex_record_byte (pyStrip (":00000001FF".data)) 1 = some b1 ∧
      get_hex_record_byte (pyStrip (":00000001FF".data)) 2 = some b2 ∧
      decodeFrom (pyStrip (":00000001FF".data)) 4 ((0 : Int)).toNat = some ds ∧
      ([0, 0, 0, 1] : List Int) = 0 :: b1 :: b2 :: 1 :: ds ∧
      ([0, 0, 0, 1] : List Int).length = ((0 : Int)).toNat + 4 :=
  parse_hex_record_data_content_layout (":00000001FF".data)
    ⟨0, 0, 0, 1, [0, 0, 0, 1], 255, true⟩ rfl

/-- C7 counterexample: a correct checksum field alone does not decide
acceptance.  The 11-character line `:00-1000100` begins with a colon, its
byte-count field decodes to 0, and its checksum field (0x00) equals the
computed checksum — the fold over the decoded header bytes `[0, -1, 0, 1]`
masked to 8 bits — yet the parser fails: `int("-1", 16)` decodes the signed
address-high field to `-1`, and `bytearray([0, -1, 0, 1])` raises
`ValueError` before the checksum comparison is reached. -/
theorem boundary_eleven_checksum_not_sufficient :
    (pyStrip (":00-1000100".data)).length = 11 ∧
      (pyStrip (":00-1000100".data)).head? = some ':' ∧
      get_hex_record_data_count (pyStrip (":00-1000100".data)) = some 0 ∧
      checksum_matches (pyStrip (":00-1000100".data)) = true ∧
      parse_hex_record (":00-1000100".data) = Except.error ParseError.valueError :=
  ⟨rfl, rfl, rfl, rfl, rfl⟩

/-- C7 amended: a stripped line of exactly 11 characters that declares
`byte_count = 0` — begins with a colon and has a byte-count field decoding
to 0 — parses successfully exactly when its checksum field is correct
(`checksum_matches`: the final two characters decode to the value the
checksum computation produces) AND the data-content extraction succeeds,
i.e. the decoded header bytes are all in `[0, 256)` so the `bytearray`
construction does not raise; and a line whose stripped length is 10 always
fails with the "too short" error, regardless of content. -/
theorem boundary_eleven_and_ten :
    (∀ line : List Char,
        (pyStrip line).length = 11 →
        (pyStrip line).head? = some ':' →
        get_hex_record_data_count (pyStrip line) = some 0 →
        ((∃ r, parse_hex_record line = Except.ok r) ↔
          (checksum_matches (pyStrip line) = true ∧
            (get_hex_record_data_content (pyStrip line)).isSome = true)))
    ∧ (∀ line : List Char, (pyStrip line).length = 10 →
        parse_hex_record line
          = Except.error (ParseError.hexRecordError
              "Hex record too short (minimum length 11 bytes)")) := by
  constructor
  · intro line hlen hcolon hdc0
    constructor
    · rintro ⟨r, hr⟩
      obtain ⟨k, b1, b2, ds, _, _, _, _, _, _, hcontent, hcks, hcalc, _, _, _, _, _, _⟩ :=
        parse_ok_inversion line r hr
      refine ⟨?_, ?_⟩
      · simp only [checksum_matches, hcks, hcalc, beq_self_eq_true]
      · rw [hcontent]
        rfl
    · rintro ⟨hm, hsome⟩
      have hbc : get_hex_record_byte_count (pyStrip line) - 1 = 4 := by
        simp only [get_hex_record_byte_count]; omega
      rcases hck : get_hex_record_checksum (pyStrip line) with _ | a
      · rw [checksum_matches, hck] at hm; simp at hm
      rcases hcal : calculate_hex_record_checksum (pyStrip line) with _ | b
      · rw [checksum_matches, hck, hcal] at hm; simp at hm
      have hab : a = b := by
        rw [checksum_matches, hck, hcal] at hm; exact eq_of_beq hm
      have hcal2 := hcal
      rw [calculate_hex_record_checksum, hbc,
        checksumFold_eq (pyStrip line) 4 0 0 (by norm_num)] at hcal2
      rcases hdec : decodeFrom (pyStrip line) 0 4 with _ | vs
      · rw [hdec] at hcal2; simp at hcal2
      rw [hdec] at hcal2
      simp only [Option.map_some', Option.some.injEq] at hcal2
      have hdec2 := hdec
      simp only [decodeFrom, Option.bind_eq_some, Option.map_eq_some'] at hdec2
      obtain ⟨b0, hb0, vs1, ⟨b1, hb1, vs2, ⟨b2, hb2, vs3, ⟨b3, hb3, ds, hds, hvs3⟩,
        hvs2⟩, hvs1⟩, hvseq⟩ := hdec2
      have hb00 : b0 = 0 := by
        have := hdc0
        simp only [get_hex_record_data_count, hb0, Option.some.injEq] at this
        exact this
      norm_num at hb1 hb2 hb3
      have haddr : get_hex_record_address (pyStrip line) = some (b1 * 256 + b2) := by
        simp only [get_hex_record_address, hb1, hb2, Option.some_bind, Option.map_some']
      have hty : get_hex_record_type (pyStrip line) = some b3 := by
        simp only [get_hex_record_type, hb3]
      have hdatac : get_hex_record_data_content (pyStrip line) = some vs := by
        rcases hw : get_hex_record_data_content (pyStrip line) with _ | w
        · rw [hw] at hsome; simp at hsome
        · have hw2 := hw
          simp only [get_hex_record_data_content, hbc, hdec, Option.some_bind] at hw2
          have hwv : w = vs := by
            unfold pyBytearray at hw2
            split at hw2
            · exact (Option.some.inj hw2).symm
            · cases hw2
          rw [hwv]
      subst hab
      refine ⟨⟨0, b1 * 256 + b2, 0, b3, vs, a, true⟩, ?_⟩
      simp only [parse_hex_record, hlen]
      norm_num
      simp only [parse_hex_record_core, hcolon, hdc0, haddr, hty, hdatac, hck, hcal, hlen,
        not_true_eq_false, if_false]
      norm_num
  · intro line h10
    simp only [parse_hex_record, h10]
    norm_num

/-- C7 witness: the 11-character end-of-file record with correct checksum
is accepted; a 10-character prefix of it is rejected as too short. -/
theorem boundary_eleven_and_ten_witness :
    (∃ r, parse_hex_record (":00000001FF".data) = Except.ok r) ∧
      parse_hex_record (":000000010".data)
        = Except.error (ParseError.hexRecordError
            "Hex record too short (minimum length 11 bytes)") :=
  ⟨(boundary_eleven_and_ten.1 (":00000001FF".data) rfl rfl rfl).mpr ⟨rfl, rfl⟩,
    boundary_eleven_and_ten.2 (":000000010".data) rfl⟩



/-- A stripped line of even length never reaches a successful parse even
without the odd-length check: the declared-length comparison
`length = 11 + 2 * byte_count` cannot hold for an even length. -/
theorem parse_hex_record_core_even_not_ok (s : List Char) (hev : s.length % 2 = 0)
    (r : HexRecord) : parse_hex_record_core s ≠ Except.ok r := by
  intro h
  simp only [parse_hex_record_core] at h
  split at h
  · simp at h
  split at h
  · simp at h
  rename_i data_count hdc
  split at h
  · simp at h
  rename_i hlenmatch
  have hq := not_ne_iff.mp hlenmatch
  omega

/-- C8: the odd-length check is a defensive redundancy that never
independently decides acceptance: the parser with the "length must be odd"
check removed accepts exactly the same lines with exactly the same records —
an even-length line of length at least 11 is always rejected later (by the
colon check, a decode failure, or the declared-vs-actual length match, whose
required length `11 + 2 * byte_count` is always odd). -/
theorem odd_length_check_redundant (line : List Char) (r : HexRecord) :
    parse_hex_record line = Except.ok r ↔
      parse_hex_record_without_odd_check line = Except.ok r := by
  simp only [parse_hex_record, parse_hex_record_without_odd_check]
  by_cases h1 : (pyStrip line).length < 11
  · rw [if_pos h1, if_pos h1]
  · rw [if_neg h1, if_neg h1]
    by_cases h2 : (pyStrip line).length % 2 ≠ 1
    · rw [if_pos h2]
      constructor
      · intro h; simp at h
      · intro h
        exact absurd h (parse_hex_record_core_even_not_ok _ (by omega) r)
    · rw [if_neg h2]



theorem hexCaseRel_cases {c c' : Char} (h : hexCaseRel c c' = true) :
    c = c' ∨ (isHexLetter c = true ∧ isHexLetter c' = true ∧ pyHexDigit c = pyHexDigit c') := by
  simp only [hexCaseRel, Bool.or_eq_true, beq_iff_eq, Bool.and_eq_true] at h
  rcases h with h | ⟨⟨hc, hc'⟩, hd⟩
  · exact Or.inl h
  · exact Or.inr ⟨hc, hc', hd⟩

theorem hexCaseRel_pyHexDigit {c c' : Char} (h : hexCaseRel c c' = true) :
    pyHexDigit c = pyHexDigit c' := by
  rcases hexCaseRel_cases h with h | ⟨_, _, h⟩
  · rw [h]
  · exact h

theorem hexCaseRel_lit {c c' : Char} (h : hexCaseRel c c' = true) (d : Char)
    (hd : isHexLetter d = false) : (c = d) ↔ (c' = d) := by
  rcases hexCaseRel_cases h with h | ⟨hc, hc', _⟩
  · rw [h]
  · constructor
    · intro h1; rw [h1] at hc; rw [hc] at hd; cases hd
    · intro h1; rw [h1] at hc'; rw [hc'] at hd; cases hd

theorem pyIsSpace_not_letter {c : Char} (h : pyIsSpace c = true) :
    isHexLetter c = false := by
  simp only [pyIsSpace, Bool.or_eq_true, beq_iff_eq] at h
  rcases h with ((((h | h) | h) | h) | h) | h <;> rw [h] <;> decide

theorem hexCaseRel_pyIsSpace {c c' : Char} (h : hexCaseRel c c' = true) :
    pyIsSpace c = pyIsSpace c' := by
  rcases hexCaseRel_cases h with h | ⟨hc, hc', _⟩
  · rw [h]
  · have s1 : pyIsSpace c = false := by
      cases hsp : pyIsSpace c
      · rfl
      · rw [pyIsSpace_not_letter hsp] at hc; cases hc
    have s2 : pyIsSpace c' = false := by
      cases hsp : pyIsSpace c'
      · rfl
      · rw [pyIsSpace_not_letter hsp] at hc'; cases hc'
    rw [s1, s2]

theorem hexCaseEquiv_cons {c c' : Char} {l l' : List Char} :
    hexCaseEquiv (c :: l) (c' :: l') = true ↔
      (hexCaseRel c c' = true ∧ hexCaseEquiv l l' = true) := by
  simp [hexCaseEquiv, Bool.and_eq_true]

theorem hexCaseEquiv_shape :
    ∀ {l l' : List Char}, hexCaseEquiv l l' = true →
      (l = [] → l' = []) ∧ (l' = [] → l = []) := by
  intro l l' h
  cases l <;> cases l' <;> simp_all [hexCaseEquiv]

theorem hexCaseEquiv_length :
    ∀ (l l' : List Char), hexCaseEquiv l l' = true → l.length = l'.length := by
  intro l
  induction l with
  | nil => intro l' h; cases l' <;> simp_all [hexCaseEquiv]
  | cons c t ih =>
    intro l' h
    cases l' with
    | nil => simp [hexCaseEquiv] at h
    | cons c' t' =>
      obtain ⟨_, ht⟩ := hexCaseEquiv_cons.mp h
      simp [ih t' ht]

theorem hexCaseEquiv_drop (n : Nat) :
    ∀ (l l' : List Char), hexCaseEquiv l l' = true →
      hexCaseEquiv (l.drop n) (l'.drop n) = true := by
  induction n with
  | zero => intro l l' h; exact h
  | succ n ih =>
    intro l l' h
    cases l with
    | nil =>
      have := (hexCaseEquiv_shape h).1 rfl
      rw [this]
      rfl
    | cons c t =>
      cases l' with
      | nil => simp [hexCaseEquiv] at h
      | cons c' t' =>
        obtain ⟨_, ht⟩ := hexCaseEquiv_cons.mp h
        exact ih t t' ht

theorem hexCaseEquiv_take (n : Nat) :
    ∀ (l l' : List Char), hexCaseEquiv l l' = true →
      hexCaseEquiv (l.take n) (l'.take n) = true := by
  induction n with
  | zero => intro l l' _; rfl
  | succ n ih =>
    intro l l' h
    cases l with
    | nil =>
      have := (hexCaseEquiv_shape h).1 rfl
      rw [this]
      rfl
    | cons c t =>
      cases l' with
      | nil => simp [hexCaseEquiv] at h
      | cons c' t' =>
        obtain ⟨hc, ht⟩ := hexCaseEquiv_cons.mp h
        exact hexCaseEquiv_cons.mpr ⟨hc, ih t t' ht⟩

theorem hexCaseEquiv_append_singleton :
    ∀ (l l' : List Char) (c c' : Char), hexCaseEquiv l l' = true →
      hexCaseRel c c' = true → hexCaseEquiv (l ++ [c]) (l' ++ [c']) = true := by
  intro l
  induction l with
  | nil =>
    intro l' c c' h hc
    rw [(hexCaseEquiv_shape h).1 rfl]
    exact hexCaseEquiv_cons.mpr ⟨hc, rfl⟩
  | cons a t ih =>
    intro l' c c' h hc
    cases l' with
    | nil => simp [hexCaseEquiv] at h
    | cons a' t' =>
      obtain ⟨ha, ht⟩ := hexCaseEquiv_cons.mp h
      exact hexCaseEquiv_cons.mpr ⟨ha, ih t' c c' ht hc⟩

theorem hexCaseEquiv_reverse :
    ∀ (l l' : List Char), hexCaseEquiv l l' = true →
      hexCaseEquiv l.reverse l'.reverse = true := by
  intro l
  induction l with
  | nil =>
    intro l' h
    rw [(hexCaseEquiv_shape h).1 rfl]
    rfl
  | cons c t ih =>
    intro l' h
    cases l' with
    | nil => simp [hexCaseEquiv] at h
    | cons c' t' =>
      obtain ⟨hc, ht⟩ := hexCaseEquiv_cons.mp h
      simp only [List.reverse_cons]
      exact hexCaseEquiv_append_singleton _ _ _ _ (ih t' ht) hc

theorem hexCaseEquiv_dropWhile :
    ∀ (l l' : List Char), hexCaseEquiv l l' = true →
      hexCaseEquiv (l.dropWhile pyIsSpace) (l'.dropWhile pyIsSpace) = true := by
  intro l
  induction l with
  | nil =>
    intro l' h
    rw [(hexCaseEquiv_shape h).1 rfl]
    rfl
  | cons c t ih =>
    intro l' h
    cases l' with
    | nil => simp [hexCaseEquiv] at h
    | cons c' t' =>
      obtain ⟨hc, ht⟩ := hexCaseEquiv_cons.mp h
      have hsp := hexCaseRel_pyIsSpace hc
      simp only [List.dropWhile]
      cases hspc : pyIsSpace c
      · rw [← hsp, hspc]
        exact hexCaseEquiv_cons.mpr ⟨hc, ht⟩
      · rw [← hsp, hspc]
        exact ih t' ht

theorem hexCaseEquiv_pyStrip (l l' : List Char) (h : hexCaseEquiv l l' = true) :
    hexCaseEquiv (pyStrip l) (pyStrip l') = true :=
  hexCaseEquiv_reverse _ _ (hexCaseEquiv_dropWhile _ _
    (hexCaseEquiv_reverse _ _ (hexCaseEquiv_dropWhile _ _ h)))



theorem pyHexDigitsGo_congr :
    ∀ (n : Nat) (acc : Int) (l l' : List Char), l.length ≤ n →
      hexCaseEquiv l l' = true → pyHexDigitsGo acc l = pyHexDigitsGo acc l' := by
  intro n
  induction n with
  | zero =>
    intro acc l l' hn h
    have hl : l = [] := List.length_eq_zero.mp (Nat.le_zero.mp hn)
    subst hl
    rw [(hexCaseEquiv_shape h).1 rfl]
  | succ n ih =>
    intro acc l l' hn h
    cases l with
    | nil => rw [(hexCaseEquiv_shape h).1 rfl]
    | cons c t =>
      cases l' with
      | nil => exact Bool.noConfusion h
      | cons c' t' =>
        obtain ⟨hc, ht⟩ := hexCaseEquiv_cons.mp h
        have hund : (c = '_') ↔ (c' = '_') := hexCaseRel_lit hc '_' (by decide)
        cases t with
        | nil =>
          rw [(hexCaseEquiv_shape ht).1 rfl]
          simp only [pyHexDigitsGo]
          by_cases hu : c = '_'
          · rw [if_pos hu, if_pos (hund.mp hu)]
          · rw [if_neg hu, if_neg (fun e => hu (hund.mpr e))]
            rw [← hexCaseRel_pyHexDigit hc]
        | cons c2 t2 =>
          cases t' with
          | nil => exact Bool.noConfusion ht
          | cons c2' t2' =>
            obtain ⟨hc2, ht2⟩ := hexCaseEquiv_cons.mp ht
            simp only [pyHexDigitsGo]
            by_cases hu : c = '_'
            · rw [if_pos hu, if_pos (hund.mp hu)]
              rw [← hexCaseRel_pyHexDigit hc2]
              cases pyHexDigit c2 with
              | none => rfl
              | some d =>
                simp only
                apply ih
                · simp at hn ⊢; omega
                · exact ht2
            · rw [if_neg hu, if_neg (fun e => hu (hund.mpr e))]
              rw [← hexCaseRel_pyHexDigit hc]
              cases pyHexDigit c with
              | none => rfl
              | some d =>
                simp only
                apply ih
                · simp at hn ⊢; omega
                · exact hexCaseEquiv_cons.mpr ⟨hc2, ht2⟩

theorem pyHexDigitsRun_congr (l l' : List Char) (h : hexCaseEquiv l l' = true) :
    pyHexDigitsRun l = pyHexDigitsRun l' := by
  cases l with
  | nil => rw [(hexCaseEquiv_shape h).1 rfl]
  | cons c t =>
    cases l' with
    | nil => exact Bool.noConfusion h
    | cons c' t' =>
      obtain ⟨hc, ht⟩ := hexCaseEquiv_cons.mp h
      simp only [pyHexDigitsRun]
      rw [← hexCaseRel_pyHexDigit hc]
      cases pyHexDigit c with
      | none => rfl
      | some d =>
        simp only
        exact pyHexDigitsGo_congr t.length d t t' le_rfl ht

theorem pyIntHexAfterBaseMarker_congr (l l' : List Char)
    (h : hexCaseEquiv l l' = true) :
    pyIntHexAfterBaseMarker l = pyIntHexAfterBaseMarker l' := by
  cases l with
  | nil => rw [(hexCaseEquiv_shape h).1 rfl]
  | cons c t =>
    cases l' with
    | nil => exact Bool.noConfusion h
    | cons c' t' =>
      obtain ⟨hc, ht⟩ := hexCaseEquiv_cons.mp h
      simp only [pyIntHexAfterBaseMarker]
      by_cases hund : c = '_'
      · have hund' : c' = '_' := (hexCaseRel_lit hc '_' (by decide)).mp hund
        rw [if_pos hund, if_pos hund']
        exact pyHexDigitsRun_congr t t' ht
      · have hund' : ¬ (c' = '_') := fun e => hund ((hexCaseRel_lit hc '_' (by decide)).mpr e)
        rw [if_neg hund, if_neg hund']
        exact pyHexDigitsRun_congr _ _ (hexCaseEquiv_cons.mpr ⟨hc, ht⟩)

theorem pyIntHexMag_congr (l l' : List Char) (h : hexCaseEquiv l l' = true) :
    pyIntHexMag l = pyIntHexMag l' := by
  cases l with
  | nil => rw [(hexCaseEquiv_shape h).1 rfl]
  | cons c0 t =>
    cases l' with
    | nil => exact Bool.noConfusion h
    | cons c0' t' =>
      obtain ⟨hc0, ht⟩ := hexCaseEquiv_cons.mp h
      cases t with
      | nil =>
        rw [(hexCaseEquiv_shape ht).1 rfl]
        simp only [pyIntHexMag]
        exact pyHexDigitsRun_congr _ _ (hexCaseEquiv_cons.mpr ⟨hc0, rfl⟩)
      | cons c1 t2 =>
        cases t' with
        | nil => exact Bool.noConfusion ht
        | cons c1' t2' =>
          obtain ⟨hc1, ht2⟩ := hexCaseEquiv_cons.mp ht
          simp only [pyIntHexMag]
          have hmark : (c0 = '0' ∧ (c1 = 'x' ∨ c1 = 'X')) ↔
              (c0' = '0' ∧ (c1' = 'x' ∨ c1' = 'X')) := by
            rw [hexCaseRel_lit hc0 '0' (by decide), hexCaseRel_lit hc1 'x' (by decide),
              hexCaseRel_lit hc1 'X' (by decide)]
          by_cases hm : c0 = '0' ∧ (c1 = 'x' ∨ c1 = 'X')
          · rw [if_pos hm, if_pos (hmark.mp hm)]
            exact pyIntHexAfterBaseMarker_congr t2 t2' ht2
          · rw [if_neg hm, if_neg (fun e => hm (hmark.mpr e))]
            exact pyHexDigitsRun_congr _ _
              (hexCaseEquiv_cons.mpr ⟨hc0, hexCaseEquiv_cons.mpr ⟨hc1, ht2⟩⟩)

theorem pyIntHex_congr (l l' : List Char) (h : hexCaseEquiv l l' = true) :
    pyIntHex l = pyIntHex l' := by
  have hs := hexCaseEquiv_pyStrip l l' h
  cases hstrip : pyStrip l with
  | nil =>
    rw [hstrip] at hs
    have h2 : pyStrip l' = [] := (hexCaseEquiv_shape hs).1 rfl
    simp only [pyIntHex, hstrip, h2]
  | cons c t =>
    rw [hstrip] at hs
    cases hstrip' : pyStrip l' with
    | nil => rw [hstrip'] at hs; exact Bool.noConfusion hs
    | cons c' t' =>
      rw [hstrip'] at hs
      obtain ⟨hc, ht⟩ := hexCaseEquiv_cons.mp hs
      simp only [pyIntHex, hstrip, hstrip']
      by_cases hplus : c = '+'
      · have hplus' : c' = '+' := (hexCaseRel_lit hc '+' (by decide)).mp hplus
        rw [if_pos hplus, if_pos hplus']
        exact pyIntHexMag_congr t t' ht
      · have hplus' : ¬ (c' = '+') := fun e => hplus ((hexCaseRel_lit hc '+' (by decide)).mpr e)
        rw [if_neg hplus, if_neg hplus']
        by_cases hminus : c = '-'
        · have hminus' : c' = '-' := (hexCaseRel_lit hc '-' (by decide)).mp hminus
          rw [if_pos hminus, if_pos hminus']
          rw [pyIntHexMag_congr t t' ht]
        · have hminus' : ¬ (c' = '-') :=
            fun e => hminus ((hexCaseRel_lit hc '-' (by decide)).mpr e)
          rw [if_neg hminus, if_neg hminus']
          exact pyIntHexMag_congr _ _ (hexCaseEquiv_cons.mpr ⟨hc, ht⟩)



theorem get_hex_record_byte_congr (s s' : List Char) (h : hexCaseEquiv s s' = true)
    (n : Nat) : get_hex_record_byte s n = get_hex_record_byte s' n := by
  simp only [get_hex_record_byte]
  exact pyIntHex_congr _ _ (hexCaseEquiv_take 2 _ _ (hexCaseEquiv_drop (1 + n * 2) _ _ h))

theorem decodeFrom_congr (s s' : List Char) (h : hexCaseEquiv s s' = true) :
    ∀ (n i : Nat), decodeFrom s i n = decodeFrom s' i n := by
  intro n
  induction n with
  | zero => intro i; rfl
  | succ n ih =>
    intro i
    simp only [decodeFrom, get_hex_record_byte_congr s s' h i, ih (i + 1)]

theorem checksumFold_congr (s s' : List Char) (h : hexCaseEquiv s s' = true) :
    ∀ (n i : Nat) (acc : Int), checksumFold s i acc n = checksumFold s' i acc n := by
  intro n
  induction n with
  | zero => intro i acc; rfl
  | succ n ih =>
    intro i acc
    simp only [checksumFold, get_hex_record_byte_congr s s' h i]
    cases get_hex_record_byte s' i with
    | none => rfl
    | some b => simp only [Option.some_bind, ih (i + 1)]

theorem parse_hex_record_core_congr (s s' : List Char)
    (h : hexCaseEquiv s s' = true) :
    parse_hex_record_core s = parse_hex_record_core s' := by
  have hlen : s.length = s'.length := hexCaseEquiv_length s s' h
  have h1 : get_hex_record_data_count s = get_hex_record_data_count s' :=
    get_hex_record_byte_congr s s' h 0
  have h2 : get_hex_record_address s = get_hex_record_address s' := by
    simp only [get_hex_record_address, get_hex_record_byte_congr s s' h 1,
      get_hex_record_byte_congr s s' h 2]
  have h3 : get_hex_record_type s = get_hex_record_type s' :=
    get_hex_record_byte_congr s s' h 3
  have h4 : get_hex_record_data_content s = get_hex_record_data_content s' := by
    simp only [get_hex_record_data_content, get_hex_record_byte_count, hlen,
      decodeFrom_congr s s' h]
  have h5 : get_hex_record_checksum s = get_hex_record_checksum s' := by
    simp only [get_hex_record_checksum, hlen]
    exact pyIntHex_congr _ _ (hexCaseEquiv_drop (s'.length - 2) _ _ h)
  have h6 : calculate_hex_record_checksum s = calculate_hex_record_checksum s' := by
    simp only [calculate_hex_record_checksum, get_hex_record_byte_count, hlen,
      checksumFold_congr s s' h]
  simp only [parse_hex_record_core, h1, h2, h3, h4, h5, h6, hlen]
  cases s with
  | nil =>
    rw [(hexCaseEquiv_shape h).1 rfl]
  | cons c t =>
    cases s' with
    | nil => exact Bool.noConfusion h
    | cons c' t' =>
      obtain ⟨hc, _⟩ := hexCaseEquiv_cons.mp h
      have hcolon : (c = ':') ↔ (c' = ':') := hexCaseRel_lit hc ':' (by decide)
      by_cases hcl : c = ':'
      · simp only [List.head?, hcl, hcolon.mp hcl]
      · have hcl' : ¬ (c' = ':') := fun e => hcl (hcolon.mpr e)
        simp only [List.head?, Option.some.injEq, hcl, hcl', not_false_eq_true, if_true]

/-- C9: hex digits are case-insensitive.  Two lines that differ at most in
the case of their hexadecimal digits (`hexCaseEquiv`) produce literally the
same parse result: the same record on success and the same error — class and
message — on failure. -/
theorem parse_hex_record_case_insensitive (l l' : List Char)
    (h : hexCaseEquiv l l' = true) :
    parse_hex_record l = parse_hex_record l' := by
  have hs := hexCaseEquiv_pyStrip l l' h
  have hlen := hexCaseEquiv_length _ _ hs
  simp only [parse_hex_record, hlen, parse_hex_record_core_congr _ _ hs]

/-- C9 witness: the end-of-file record written with lower-case and
upper-case hex digits parses identically. -/
theorem parse_hex_record_case_insensitive_witness :
    hexCaseEquiv (":00000001ff".data) (":00000001FF".data) = true ∧
      parse_hex_record (":00000001ff".data) = parse_hex_record (":00000001FF".data) :=
  ⟨by decide, parse_hex_record_case_insensitive (":00000001ff".data) (":00000001FF".data)
    (by decide)⟩

end HexParser
